import Mathlib

/-!
Shallow embedding of the future primitive in src/main.go.

The Go program implements a single-value future: `ReturnAFuture` starts a
background task that sends one `Result` on an unbuffered channel, and the
`FutureTask` handle offers blocking retrieval (`get`), deadline-bounded
retrieval (`getWithTimeout`), cancellation (`cancel`), inspection
(`isCancelled`, `isRunning`, `complete`) and a single completion callback
slot (`addDoneCallback`).

Modelling decisions:
* Go `interface\x7b\x7d` payloads are modelled by `GoValue` (nil, string or
  integer, the shapes the program uses), rendered as fmt's %v verb renders
  them.
* Go `error` values are modelled by `Err`, an inductive tagging the three
  concrete error kinds that can reach a `Result`: the `TimeoutError` and
  `InterruptError` structs of main.go, and an arbitrary task-produced
  error (`taskError`), each carrying the string its `Error()` method
  returns.
* The channel and the deadline race are modelled by an event `Ev` passed to
  the channel wait: either the select resolves because the context fired
  (`ctxDone`) or because the channel delivered a `Result` (`recv r`).
  A `GoCtx` records whether a deadline is attached; `GoCtx.allows` says
  which events the select under that context can resolve with
  (`context.Background()` can never fire its Done branch).
* The completion callback is opaque, so the state keeps only whether the
  slot is non-nil (`callbackMethod`), and each operation reports whether it
  invoked the callback.
* The `running` flag written by the background goroutine, and the delivery
  on the channel, appear as environment steps or events in the trace
  semantics `FutureTask.step` / `FutureTask.run`.
-/

/-- A Go `interface\x7b\x7d` payload as the program uses it: nil, a string or an
integer. -/
inductive GoValue where
  | nil
  | str (s : String)
  | int (n : Int)
deriving DecidableEq

/-- Rendering of a payload by fmt's %v verb. -/
def GoValue.render : GoValue → String
  | .nil => "<nil>"
  | .str s => s
  | .int n => toString n

/-- A Go `error` value that can reach a `Result`: one of the two error
structs of main.go, or an arbitrary error produced by the task body. -/
inductive Err where
  | timeoutError (errorString : String)
  | interruptError (errorString : String)
  | taskError (errorString : String)
deriving DecidableEq

/-- The `Error()` method: each kind returns its message string. -/
def Err.Error : Err → String
  | .timeoutError s => s
  | .interruptError s => s
  | .taskError s => s

/-- `Result` of main.go: a value and an error, the error absent (`none`)
on success. -/
structure Result where
  value : GoValue
  error : Option Err
deriving DecidableEq

/-- The `String()` method of `Result` (its Stringer), named `toString` here
because the method's own name would shadow the `String` type: renders
"value with (no error)" or "value with (message error)". -/
def Result.toString (result : Result) : String :=
  let err : String :=
    match result.error with
    | none => "no"
    | some e => e.Error
  result.value.render ++ " with (" ++ err ++ " error)"

/-- `FutureTask` of main.go. The channel is not stored: delivery on it is an
event fed to the channel wait. `callbackMethod` records whether the callback
slot is non-nil. -/
structure FutureTask where
  success : Bool
  error : Option Err
  running : Bool
  done : Bool
  result : Result
  callbackMethod : Bool
deriving DecidableEq

/-- A Go context as the program uses one: `context.Background()` has no
deadline, `context.WithTimeout` attaches one. -/
structure GoCtx where
  hasDeadline : Bool
deriving DecidableEq

/-- `context.Background()`. -/
def contextBackground : GoCtx := ⟨false⟩

/-- The context `getWithTimeout` builds with `context.WithTimeout`. -/
def contextWithTimeout : GoCtx := ⟨true⟩

/-- How the select in `getWithContext` resolves: the context's Done channel
fired first, or the result channel delivered `r` first. -/
inductive Ev where
  | ctxDone
  | recv (r : Result)
deriving DecidableEq

/-- Which events the select can resolve with under `ctx`: the Done branch
can fire only when a deadline is attached; a channel delivery is always a
possible resolution. -/
def GoCtx.allows : GoCtx → Ev → Bool
  | ctx, .ctxDone => ctx.hasDeadline
  | _, .recv _ => true

/-- `getWithContext` of main.go: the select over `ctx.Done()` and the result
channel, resolved by event `ev`. Returns the updated task and the returned
`Result`. The `ctx` argument only constrains which events can occur
(`GoCtx.allows`); the body treats both branches as the code does. -/
def FutureTask.getWithContext (futureTask : FutureTask) (_ctx : GoCtx) (ev : Ev) :
    FutureTask × Result :=
  match ev with
  | .ctxDone =>
    ({ futureTask with
        done := true
        success := false
        error := some (Err.timeoutError "Request Timeout!")
        result := { value := .nil, error := some (Err.timeoutError "Request Timeout!") } },
     { value := .nil, error := some (Err.timeoutError "Request Timeout!") })
  | .recv r =>
    if r.error.isSome then
      ({ futureTask with result := r, done := true, success := false, error := r.error }, r)
    else
      ({ futureTask with result := r, success := true, done := true, error := none }, r)

/-- `get` of main.go: fast path on `done`, otherwise defer the callback (when
registered) and wait under `context.Background()`. Returns the updated task,
the `Result`, and whether the callback was invoked. -/
def FutureTask.get (futureTask : FutureTask) (ev : Ev) : FutureTask × Result × Bool :=
  if futureTask.done then
    (futureTask, futureTask.result, false)
  else
    ((futureTask.getWithContext contextBackground ev).1,
     (futureTask.getWithContext contextBackground ev).2,
     futureTask.callbackMethod)

/-- `getWithTimeout` of main.go: fast path on `done`, otherwise defer the
callback (when registered) and wait under a context with a deadline. The
duration itself is not modelled; `ev` says which side of the race won. -/
def FutureTask.getWithTimeout (futureTask : FutureTask) (ev : Ev) :
    FutureTask × Result × Bool :=
  if futureTask.done then
    (futureTask, futureTask.result, false)
  else
    ((futureTask.getWithContext contextWithTimeout ev).1,
     (futureTask.getWithContext contextWithTimeout ev).2,
     futureTask.callbackMethod)

/-- `isCancelled` of main.go: `done` and the recorded error's message string
equals "Cancelled Manually". -/
def FutureTask.isCancelled (futureTask : FutureTask) : Bool :=
  if futureTask.done then
    match futureTask.error with
    | some e => e.Error = "Cancelled Manually"
    | none => false
  else false

/-- `complete` of main.go. -/
def FutureTask.complete (futureTask : FutureTask) : Bool :=
  if futureTask.done then true else false

/-- `isRunning` of main.go. -/
def FutureTask.isRunning (futureTask : FutureTask) : Bool :=
  if futureTask.running then true else false

/-- `cancel` of main.go: fails when complete, cancelled or running; on
success defers the callback (when registered) and writes the terminal
cancelled state without touching the channel. Returns the updated task, the
boolean returned, and whether the callback was invoked. -/
def FutureTask.cancel (futureTask : FutureTask) : FutureTask × Bool × Bool :=
  if futureTask.complete || futureTask.isCancelled || futureTask.isRunning then
    (futureTask, false, false)
  else
    ({ futureTask with
        done := true
        success := false
        error := some (Err.interruptError "Cancelled Manually")
        result := { value := .nil, error := some (Err.interruptError "Cancelled Manually") } },
      true, futureTask.callbackMethod)

/-- `addDoneCallback` of main.go: the single callback slot becomes non-nil
(registering again overwrites the slot, which the Boolean abstraction keeps
as true). -/
def FutureTask.addDoneCallback (futureTask : FutureTask) : FutureTask :=
  { futureTask with callbackMethod := true }

/-- `ReturnAFuture` of main.go: the `FutureTask` as constructed, before any
caller or goroutine step. `running` and `callbackMethod` start at their Go
zero values; `result` is the zero `Result`. -/
def ReturnAFuture : FutureTask :=
  { success := false
    done := false
    error := none
    result := { value := .nil, error := none }
    running := false
    callbackMethod := false }

/-- One action on a future: a caller call, or an environment step by the
background goroutine (flipping `running`). A `get` call's wait resolves only
by a channel delivery, since `context.Background()` never fires its Done
branch (`contextBackground.allows Ev.ctxDone = false`, proven below). -/
inductive Act where
  | aGet (r : Result)
  | aGetWithTimeout (ev : Ev)
  | aCancel
  | aAddDoneCallback
  | aSetRunning (b : Bool)
deriving DecidableEq

/-- One step of the trace semantics: the updated task and whether the step
invoked the callback. -/
def FutureTask.step (futureTask : FutureTask) : Act → FutureTask × Bool
  | .aGet r => ((futureTask.get (.recv r)).1, (futureTask.get (.recv r)).2.2)
  | .aGetWithTimeout ev =>
    ((futureTask.getWithTimeout ev).1, (futureTask.getWithTimeout ev).2.2)
  | .aCancel => ((futureTask.cancel).1, (futureTask.cancel).2.2)
  | .aAddDoneCallback => (futureTask.addDoneCallback, false)
  | .aSetRunning b => ({ futureTask with running := b }, false)

/-- Run a sequence of actions. -/
def FutureTask.run (futureTask : FutureTask) : List Act → FutureTask
  | [] => futureTask
  | a :: acts => ((futureTask.step a).1).run acts

/-- How many times the callback is invoked along a sequence of actions. -/
def FutureTask.countFires (futureTask : FutureTask) : List Act → Nat
  | [] => 0
  | a :: acts =>
    (if (futureTask.step a).2 then 1 else 0) + ((futureTask.step a).1).countFires acts

/-- Terminal bookkeeping consistency: the stored error equals the error of
the cached Result, and the success flag holds exactly when that error is
absent. -/
def FutureTask.consistent (ft : FutureTask) : Prop :=
  ft.error = ft.result.error ∧ (ft.success = true ↔ ft.error = none)

/-! ## Shared lemmas about single steps and runs -/

/-- Once a task is done, every action leaves the terminal bookkeeping fields
untouched and fires no callback. -/
theorem FutureTask.step_done_frame (ft : FutureTask) (a : Act) (h : ft.done = true) :
    (ft.step a).1.done = true ∧ (ft.step a).1.result = ft.result ∧
    (ft.step a).1.error = ft.error ∧ (ft.step a).1.success = ft.success ∧
    (ft.step a).2 = false := by
  cases a <;>
    simp [FutureTask.step, FutureTask.get, FutureTask.getWithTimeout,
      FutureTask.cancel, FutureTask.complete, FutureTask.addDoneCallback, h]

/-- Once a task is done, a whole run leaves the terminal bookkeeping fields
untouched. -/
theorem FutureTask.run_done_frame (ft : FutureTask) (acts : List Act) (h : ft.done = true) :
    (ft.run acts).done = true ∧ (ft.run acts).result = ft.result ∧
    (ft.run acts).error = ft.error ∧ (ft.run acts).success = ft.success := by
  induction acts generalizing ft with
  | nil => exact ⟨h, rfl, rfl, rfl⟩
  | cons a acts ih =>
    have h1 := ft.step_done_frame a h
    have h2 := ih (ft.step a).1 h1.1
    simp only [FutureTask.run]
    exact ⟨h2.1, h2.2.1.trans h1.2.1, h2.2.2.1.trans h1.2.2.1,
      h2.2.2.2.trans h1.2.2.2.1⟩

/-- The channel wait never touches the callback slot or the running flag,
and always leaves the task done. -/
theorem FutureTask.getWithContext_frame (ft : FutureTask) (ctx : GoCtx) (ev : Ev) :
    (ft.getWithContext ctx ev).1.callbackMethod = ft.callbackMethod ∧
    (ft.getWithContext ctx ev).1.running = ft.running ∧
    (ft.getWithContext ctx ev).1.done = true := by
  cases ev with
  | ctxDone => exact ⟨rfl, rfl, rfl⟩
  | recv r =>
    by_cases h : r.error.isSome <;> simp [FutureTask.getWithContext, h]

/-- A registered callback slot stays registered across every action. -/
theorem FutureTask.step_cb_preserved (ft : FutureTask) (a : Act)
    (h : ft.callbackMethod = true) : (ft.step a).1.callbackMethod = true := by
  cases a with
  | aGet r =>
    simp only [FutureTask.step, FutureTask.get]
    split
    · exact h
    · exact (ft.getWithContext_frame contextBackground (.recv r)).1.trans h
  | aGetWithTimeout ev =>
    simp only [FutureTask.step, FutureTask.getWithTimeout]
    split
    · exact h
    · exact (ft.getWithContext_frame contextWithTimeout ev).1.trans h
  | aCancel =>
    simp only [FutureTask.step, FutureTask.cancel]
    split
    · exact h
    · exact h
  | aAddDoneCallback => rfl
  | aSetRunning b => exact h

/-- With a registered callback, a step invokes the callback exactly when the
step moves the task from not done to done. -/
theorem FutureTask.step_fires_iff (ft : FutureTask) (a : Act)
    (h : ft.callbackMethod = true) :
    (ft.step a).2 = ((ft.step a).1.done && !ft.done) := by
  cases a with
  | aGet r =>
    simp only [FutureTask.step, FutureTask.get]
    by_cases hd : ft.done = true <;>
      simp [hd, (ft.getWithContext_frame contextBackground (.recv r)).2.2, h]
  | aGetWithTimeout ev =>
    simp only [FutureTask.step, FutureTask.getWithTimeout]
    by_cases hd : ft.done = true <;>
      simp [hd, (ft.getWithContext_frame contextWithTimeout ev).2.2, h]
  | aCancel =>
    simp only [FutureTask.step, FutureTask.cancel]
    split
    · simp
    next hc =>
      have hd : ft.done = false := by
        cases h1 : ft.done
        · rfl
        · exact absurd (by simp [FutureTask.complete, h1]) hc
      simp [h, hd]
  | aAddDoneCallback =>
    simp [FutureTask.step, FutureTask.addDoneCallback]
  | aSetRunning b =>
    simp [FutureTask.step]

/-- A done task never invokes the callback again, along any run. -/
theorem FutureTask.countFires_done (ft : FutureTask) (acts : List Act)
    (h : ft.done = true) : ft.countFires acts = 0 := by
  induction acts generalizing ft with
  | nil => rfl
  | cons a acts ih =>
    have h1 := ft.step_done_frame a h
    simp [FutureTask.countFires, h1.2.2.2.2, ih (ft.step a).1 h1.1]

/-- With a registered callback on a pending task, a run invokes the callback
once when it reaches the terminal state and not at all otherwise. -/
theorem FutureTask.countFires_eq_ite_done (ft : FutureTask) (acts : List Act)
    (hcb : ft.callbackMethod = true) (hnd : ft.done = false) :
    ft.countFires acts = if (ft.run acts).done = true then 1 else 0 := by
  induction acts generalizing ft with
  | nil => simp [FutureTask.countFires, FutureTask.run, hnd]
  | cons a acts ih =>
    have hf := ft.step_fires_iff a hcb
    cases hd : (ft.step a).1.done
    · have hno : (ft.step a).2 = false := by simp [hf, hd]
      simp [FutureTask.countFires, FutureTask.run, hno,
        ih (ft.step a).1 (ft.step_cb_preserved a hcb) hd]
    · have hfire : (ft.step a).2 = true := by simp [hf, hd, hnd]
      have hz := FutureTask.countFires_done (ft.step a).1 acts hd
      have hr := (FutureTask.run_done_frame (ft.step a).1 acts hd).1
      simp [FutureTask.countFires, FutureTask.run, hfire, hz, hr]

/-- Fires along a concatenated run split at the junction state. -/
theorem FutureTask.countFires_append (ft : FutureTask) (l1 l2 : List Act) :
    ft.countFires (l1 ++ l2) = ft.countFires l1 + (ft.run l1).countFires l2 := by
  induction l1 generalizing ft with
  | nil => simp [FutureTask.countFires, FutureTask.run]
  | cons a l1 ih =>
    simp [FutureTask.countFires, FutureTask.run, ih, Nat.add_assoc]

/-- Both branches of the channel wait leave a consistent terminal state. -/
theorem FutureTask.getWithContext_consistent (ft : FutureTask) (ctx : GoCtx) (ev : Ev) :
    (ft.getWithContext ctx ev).1.consistent := by
  cases ev with
  | ctxDone => simp [FutureTask.getWithContext, FutureTask.consistent]
  | recv r =>
    cases hre : r.error <;>
      simp [FutureTask.getWithContext, FutureTask.consistent, hre]

/-- Every action preserves terminal bookkeeping consistency. -/
theorem FutureTask.step_preserves_consistent (ft : FutureTask) (a : Act)
    (h : ft.done = true → ft.consistent) (hd : (ft.step a).1.done = true) :
    (ft.step a).1.consistent := by
  cases a with
  | aGet r =>
    by_cases hdone : ft.done = true
    · have he : (ft.step (Act.aGet r)).1 = ft := by
        simp [FutureTask.step, FutureTask.get, hdone]
      rw [he] at hd ⊢
      exact h hd
    · have he : (ft.step (Act.aGet r)).1 =
          (ft.getWithContext contextBackground (.recv r)).1 := by
        simp [FutureTask.step, FutureTask.get, hdone]
      rw [he]
      exact ft.getWithContext_consistent contextBackground (.recv r)
  | aGetWithTimeout ev =>
    by_cases hdone : ft.done = true
    · have he : (ft.step (Act.aGetWithTimeout ev)).1 = ft := by
        simp [FutureTask.step, FutureTask.getWithTimeout, hdone]
      rw [he] at hd ⊢
      exact h hd
    · have he : (ft.step (Act.aGetWithTimeout ev)).1 =
          (ft.getWithContext contextWithTimeout ev).1 := by
        simp [FutureTask.step, FutureTask.getWithTimeout, hdone]
      rw [he]
      exact ft.getWithContext_consistent contextWithTimeout ev
  | aCancel =>
    by_cases hc : (ft.complete || ft.isCancelled || ft.isRunning) = true
    · have he : (ft.step Act.aCancel).1 = ft := by
        simp [FutureTask.step, FutureTask.cancel, hc]
      rw [he] at hd ⊢
      exact h hd
    · simp [FutureTask.step, FutureTask.cancel, hc, FutureTask.consistent]
  | aAddDoneCallback => exact h hd
  | aSetRunning b => exact h hd

/-- A run from a state satisfying the invariant keeps it. -/
theorem FutureTask.run_preserves_consistent (ft : FutureTask) (acts : List Act)
    (h : ft.done = true → ft.consistent) (hd : (ft.run acts).done = true) :
    (ft.run acts).consistent := by
  induction acts generalizing ft with
  | nil => exact h hd
  | cons a acts ih =>
    simp only [FutureTask.run] at hd ⊢
    exact ih (ft.step a).1 (fun hdd => ft.step_preserves_consistent a h hdd) hd

/-- The channel wait caches exactly the Result it returns. -/
theorem FutureTask.getWithContext_result (ft : FutureTask) (ctx : GoCtx) (ev : Ev) :
    (ft.getWithContext ctx ev).1.result = (ft.getWithContext ctx ev).2 := by
  cases ev with
  | ctxDone => rfl
  | recv r => by_cases h : r.error.isSome <;> simp [FutureTask.getWithContext, h]

/-- The deadline branch of `getWithTimeout` on a pending task, written out. -/
theorem FutureTask.getWithTimeout_ctxDone (ft : FutureTask) (h : ft.done = false) :
    ft.getWithTimeout Ev.ctxDone =
      ({ ft with
          done := true
          success := false
          error := some (Err.timeoutError "Request Timeout!")
          result := { value := GoValue.nil, error := some (Err.timeoutError "Request Timeout!") } },
       { value := GoValue.nil, error := some (Err.timeoutError "Request Timeout!") },
       ft.callbackMethod) := by
  simp [FutureTask.getWithTimeout, FutureTask.getWithContext, h]

/-- A `get` after any run from a done state returns the cached Result of
that state. -/
theorem FutureTask.get_after_run_of_done (ft : FutureTask) (acts : List Act) (ev : Ev)
    (h : ft.done = true) : ((ft.run acts).get ev).2.1 = ft.result := by
  have hd := ft.run_done_frame acts h
  simp [FutureTask.get, hd.1, hd.2.1]

/-! ## The claims -/

/-- C1: if the deadline elapses before the channel delivers, `getWithTimeout`
marks the task done and unsuccessful, records the timeout error, caches a
Result carrying that error and returns it; the task is then permanently
terminal: after any further sequence of calls and goroutine steps, including
the background computation finishing and delivering its real Result, a later
`get` on the same handle still returns the cached timeout Result. -/
theorem getWithTimeout_timeout_terminal_and_sticky (ft : FutureTask)
    (h : ft.done = false) (acts : List Act) (ev : Ev) :
    (ft.getWithTimeout Ev.ctxDone).1.done = true ∧
    (ft.getWithTimeout Ev.ctxDone).1.success = false ∧
    (ft.getWithTimeout Ev.ctxDone).1.error = some (Err.timeoutError "Request Timeout!") ∧
    (ft.getWithTimeout Ev.ctxDone).1.result =
      { value := GoValue.nil, error := some (Err.timeoutError "Request Timeout!") } ∧
    (ft.getWithTimeout Ev.ctxDone).2.1 = (ft.getWithTimeout Ev.ctxDone).1.result ∧
    (((ft.getWithTimeout Ev.ctxDone).1.run acts).get ev).2.1 =
      { value := GoValue.nil, error := some (Err.timeoutError "Request Timeout!") } := by
  rw [FutureTask.getWithTimeout_ctxDone ft h]
  exact ⟨rfl, rfl, rfl, rfl, rfl, FutureTask.get_after_run_of_done _ acts ev rfl⟩

/-- Witness for C1 at a concrete pending task: the background computation
completes afterward (the goroutine stops and its Result is delivered to a
later retrieval attempt), yet the final `get` still returns the cached
timeout Result. -/
theorem getWithTimeout_timeout_terminal_and_sticky_witness :
    (ReturnAFuture.getWithTimeout Ev.ctxDone).1.done = true ∧
    (ReturnAFuture.getWithTimeout Ev.ctxDone).1.success = false ∧
    (ReturnAFuture.getWithTimeout Ev.ctxDone).1.error =
      some (Err.timeoutError "Request Timeout!") ∧
    (ReturnAFuture.getWithTimeout Ev.ctxDone).1.result =
      { value := GoValue.nil, error := some (Err.timeoutError "Request Timeout!") } ∧
    (ReturnAFuture.getWithTimeout Ev.ctxDone).2.1 =
      (ReturnAFuture.getWithTimeout Ev.ctxDone).1.result ∧
    (((ReturnAFuture.getWithTimeout Ev.ctxDone).1.run
        [Act.aSetRunning false, Act.aGet { value := GoValue.int 53, error := none }]).get
        (Ev.recv { value := GoValue.int 53, error := none })).2.1 =
      { value := GoValue.nil, error := some (Err.timeoutError "Request Timeout!") } :=
  getWithTimeout_timeout_terminal_and_sticky ReturnAFuture rfl
    [Act.aSetRunning false, Act.aGet { value := GoValue.int 53, error := none }]
    (Ev.recv { value := GoValue.int 53, error := none })

/-- C2: `cancel` returns true exactly when, at the moment of the call, the
task is not done, not already cancelled and not running; on success it marks
the task done and unsuccessful, records the distinguished cancellation error
and fabricates a cached Result carrying that error. `cancel` consumes no
channel event at all (its signature takes none), matching the code, which
never receives from the channel. -/
theorem cancel_succeeds_iff_pending_and_fabricates_result (ft : FutureTask) :
    ((ft.cancel).2.1 = true ↔
      (ft.done = false ∧ ft.isCancelled = false ∧ ft.isRunning = false)) ∧
    ((ft.cancel).2.1 = true →
      (ft.cancel).1.done = true ∧ (ft.cancel).1.success = false ∧
      (ft.cancel).1.error = some (Err.interruptError "Cancelled Manually") ∧
      (ft.cancel).1.result =
        { value := GoValue.nil, error := some (Err.interruptError "Cancelled Manually") }) := by
  cases hd : ft.done <;> cases hr : ft.running <;>
    simp [FutureTask.cancel, FutureTask.complete, FutureTask.isRunning,
      FutureTask.isCancelled, hd, hr]

/-- C3: a callback registered before the task terminates is invoked exactly
once along any sequence of calls when some call observes or causes
termination, and never otherwise; moreover all invocations happen in the
prefix that first reaches the terminal state, so the counting stops at the
first terminating call. -/
theorem registered_callback_fires_exactly_once (ft : FutureTask) (acts : List Act)
    (hcb : ft.callbackMethod = true) (hnd : ft.done = false) :
    (ft.countFires acts = if (ft.run acts).done = true then 1 else 0) ∧
    (∀ l1 l2, acts = l1 ++ l2 → (ft.run l1).done = true →
      ft.countFires acts = ft.countFires l1) := by
  refine ⟨FutureTask.countFires_eq_ite_done ft acts hcb hnd, ?_⟩
  rintro l1 l2 rfl hdone
  rw [FutureTask.countFires_append, FutureTask.countFires_done _ _ hdone, Nat.add_zero]

/-- Witness for C3: with a callback registered on a fresh task, two
successive retrievals fire the callback exactly once, at the first one. -/
theorem registered_callback_fires_exactly_once_witness :
    ((ReturnAFuture.addDoneCallback).countFires
        [Act.aGet { value := GoValue.int 53, error := none },
         Act.aGet { value := GoValue.int 7, error := none }] =
      if ((ReturnAFuture.addDoneCallback).run
          [Act.aGet { value := GoValue.int 53, error := none },
           Act.aGet { value := GoValue.int 7, error := none }]).done = true then 1 else 0) ∧
    (∀ l1 l2,
      [Act.aGet { value := GoValue.int 53, error := none },
       Act.aGet { value := GoValue.int 7, error := none }] = l1 ++ l2 →
      ((ReturnAFuture.addDoneCallback).run l1).done = true →
      (ReturnAFuture.addDoneCallback).countFires
          [Act.aGet { value := GoValue.int 53, error := none },
           Act.aGet { value := GoValue.int 7, error := none }] =
        (ReturnAFuture.addDoneCallback).countFires l1) :=
  registered_callback_fires_exactly_once ReturnAFuture.addDoneCallback
    [Act.aGet { value := GoValue.int 53, error := none },
     Act.aGet { value := GoValue.int 7, error := none }] rfl rfl

/-- C4: on a done task, `get` returns the cached Result at once, touching
neither the state nor the channel event and firing no callback; consequently
two `get` calls in sequence return the identical cached Result on the second
call, whatever events resolve them. -/
theorem get_cached_and_idempotent (ft : FutureTask) (ev ev2 : Ev) :
    (ft.done = true → ft.get ev = (ft, ft.result, false)) ∧
    ((ft.get ev).1.get ev2).2.1 = (ft.get ev).2.1 := by
  constructor
  · intro h
    simp [FutureTask.get, h]
  · by_cases h : ft.done = true
    · simp [FutureTask.get, h]
    · simp [FutureTask.get, h, (ft.getWithContext_frame contextBackground ev).2.2,
        ft.getWithContext_result contextBackground ev]

/-- C5: when the channel delivers a Result before any deadline, the wait
returns that Result unmodified and caches it, marks the task done, sets
success exactly when the Result carries no error, and records the
Result's error verbatim (clearing the stored error on success). -/
theorem channel_delivery_bookkeeping (ft : FutureTask) (ctx : GoCtx) (r : Result) :
    (ft.getWithContext ctx (Ev.recv r)).2 = r ∧
    (ft.getWithContext ctx (Ev.recv r)).1.result = r ∧
    (ft.getWithContext ctx (Ev.recv r)).1.done = true ∧
    (ft.getWithContext ctx (Ev.recv r)).1.success = r.error.isNone ∧
    (ft.getWithContext ctx (Ev.recv r)).1.error = r.error := by
  cases hre : r.error <;> simp [FutureTask.getWithContext, hre]

/-- C6 counterexample: the claim says `isCancelled` answers true only when
the recorded error is specifically the cancellation error, and in particular
answers false whenever the error is a task-produced error. But the code
compares the error's message string, so a task-produced error whose message
happens to be "Cancelled Manually" is classified as cancelled: here the
recorded error is a `taskError`, not the cancellation `interruptError`, yet
`isCancelled` answers true. -/
theorem isCancelled_true_for_task_error_with_cancelled_message :
    ((ReturnAFuture.get
        (Ev.recv { value := GoValue.nil, error := some (Err.taskError "Cancelled Manually") })).1.error =
      some (Err.taskError "Cancelled Manually")) ∧
    ((ReturnAFuture.get
        (Ev.recv { value := GoValue.nil, error := some (Err.taskError "Cancelled Manually") })).1.isCancelled =
      true) := by
  decide

/-- C6 amended: `isCancelled` answers true exactly when the task is done and
the recorded error's message string equals "Cancelled Manually" (a string
comparison, not a kind check). -/
theorem isCancelled_iff_done_and_cancelled_message (ft : FutureTask) :
    ft.isCancelled = true ↔
      (ft.done = true ∧ ∃ e, ft.error = some e ∧ e.Error = "Cancelled Manually") := by
  cases hd : ft.done
  · simp [FutureTask.isCancelled, hd]
  · cases he : ft.error <;> simp [FutureTask.isCancelled, hd, he]

/-- C7: `cancel` on a task that is already done, already cancelled or
currently running returns false and leaves every field of the task (the
whole record, hence done, success, error, result and callback slot)
unchanged, firing no callback. -/
theorem cancel_failure_leaves_state_unchanged (ft : FutureTask)
    (h : ft.done = true ∨ ft.isCancelled = true ∨ ft.running = true) :
    ft.cancel = (ft, false, false) := by
  have hc : (ft.complete || ft.isCancelled || ft.isRunning) = true := by
    rcases h with h | h | h <;>
      simp [FutureTask.complete, FutureTask.isRunning, h]
  simp [FutureTask.cancel, hc]

/-- Witness for C7 on a running task. -/
theorem cancel_failure_leaves_state_unchanged_witness :
    FutureTask.cancel { ReturnAFuture with running := true } =
      ({ ReturnAFuture with running := true }, false, false) :=
  cancel_failure_leaves_state_unchanged { ReturnAFuture with running := true }
    (Or.inr (Or.inr rfl))

/-- C8 counterexample: the claim says a plain `get` never returns a Result
carrying a TimeoutError, for every Future. But after an earlier timed-out
`getWithTimeout`, a plain `get` (resolved by an event that
`context.Background()` allows) returns the cached Result, which carries the
synthesized timeout error. -/
theorem get_returns_cached_timeout_after_earlier_timeout :
    (contextBackground.allows
        (Ev.recv { value := GoValue.str "50", error := none }) = true) ∧
    ((((ReturnAFuture.getWithTimeout Ev.ctxDone).1).get
        (Ev.recv { value := GoValue.str "50", error := none })).2.1.error =
      some (Err.timeoutError "Request Timeout!")) := by
  decide

/-- C8 amended: `get` attaches no deadline, so the deadline branch of the
shared channel wait is unreachable when entered from `get`:
`context.Background()` never allows the Done event, and a `get` on a task
that is not yet done returns exactly the Result delivered on the channel,
caching it and recording its error verbatim, never synthesizing a
TimeoutError. (A `get` on an already-done task returns the cached Result,
which can carry the TimeoutError recorded by an earlier timed-out
`getWithTimeout`.) -/
theorem get_deadline_branch_unreachable (ft : FutureTask) (ev : Ev)
    (hev : contextBackground.allows ev = true) (hnd : ft.done = false) :
    contextBackground.allows Ev.ctxDone = false ∧
    ∃ r, ev = Ev.recv r ∧ (ft.get ev).2.1 = r ∧ (ft.get ev).1.result = r ∧
      (ft.get ev).1.error = r.error := by
  refine ⟨rfl, ?_⟩
  cases ev with
  | ctxDone =>
    simp [GoCtx.allows, contextBackground] at hev
  | recv r =>
    refine ⟨r, rfl, ?_, ?_, ?_⟩ <;>
      cases hre : r.error <;>
        simp [FutureTask.get, FutureTask.getWithContext, hnd, hre]

/-- Witness for C8 amended at a fresh task receiving a successful Result. -/
theorem get_deadline_branch_unreachable_witness :
    contextBackground.allows Ev.ctxDone = false ∧
    ∃ r, (Ev.recv { value := GoValue.int 53, error := none }) = Ev.recv r ∧
      (ReturnAFuture.get (Ev.recv { value := GoValue.int 53, error := none })).2.1 = r ∧
      (ReturnAFuture.get (Ev.recv { value := GoValue.int 53, error := none })).1.result = r ∧
      (ReturnAFuture.get (Ev.recv { value := GoValue.int 53, error := none })).1.error =
        r.error :=
  get_deadline_branch_unreachable ReturnAFuture
    (Ev.recv { value := GoValue.int 53, error := none }) rfl rfl

/-- Equal character data makes equal strings. -/
theorem string_eq_of_data_eq {a b : String} (h : a.data = b.data) : a = b := by
  cases a
  cases b
  simp_all

/-- C9 counterexample: the claim says the rendering makes success and every
failure kind textually distinguishable, but an error whose message is
exactly "no" renders identically to a success carrying the same value. -/
theorem display_collision_for_error_with_message_no :
    (Result.toString { value := GoValue.nil, error := some (Err.taskError "no") } =
      Result.toString { value := GoValue.nil, error := none }) ∧
    (Result.toString { value := GoValue.nil, error := none } = "<nil> with (no error)") := by
  decide

/-- C9 amended: the display rendering is the value followed by
" with (no error)" when the error is absent, and the value followed by
" with (message error)" when an error is present; renderings therefore
separate success from every failure whose message is not the literal string
"no" (in particular from the synthesized timeout and cancellation errors),
while an error whose message is exactly "no" renders identically to a
success with the same value. -/
theorem result_display_rendering (r : Result) :
    (r.error = none → r.toString = r.value.render ++ " with (no error)") ∧
    (∀ e, r.error = some e →
      r.toString = r.value.render ++ " with (" ++ e.Error ++ " error)") ∧
    (∀ e, r.error = some e → e.Error ≠ "no" →
      r.toString ≠ Result.toString { value := r.value, error := none }) := by
  refine ⟨?_, ?_, ?_⟩
  · intro h
    simp only [Result.toString, h]
    have hno : ((" with (" ++ ("no" ++ " error)")) : String) = " with (no error)" := by
      decide
    rw [String.append_assoc, String.append_assoc, hno]
  · intro e he
    simp [Result.toString, he]
  · intro e he hne heq
    simp only [Result.toString, he] at heq
    have hdata := congrArg String.data heq
    simp only [String.data_append, List.append_assoc] at hdata
    have h1 := List.append_cancel_left hdata
    have h2 := List.append_cancel_left h1
    have h3 := List.append_cancel_right h2
    exact hne (string_eq_of_data_eq h3)

/-- C10: along every sequence of caller calls and goroutine steps from a
fresh future, whenever the done flag is set the cached fields are mutually
consistent: the stored error equals the error of the cached Result, and the
success flag is true exactly when that error is absent. -/
theorem run_from_fresh_future_consistent (acts : List Act)
    (h : (ReturnAFuture.run acts).done = true) :
    (ReturnAFuture.run acts).error = (ReturnAFuture.run acts).result.error ∧
    ((ReturnAFuture.run acts).success = true ↔ (ReturnAFuture.run acts).error = none) :=
  FutureTask.run_preserves_consistent ReturnAFuture acts
    (fun hdd => absurd hdd (by decide)) h

/-- Witness for C10 at a concrete terminating run (a successful cancel). -/
theorem run_from_fresh_future_consistent_witness :
    (ReturnAFuture.run [Act.aCancel]).error = (ReturnAFuture.run [Act.aCancel]).result.error ∧
    ((ReturnAFuture.run [Act.aCancel]).success = true ↔
      (ReturnAFuture.run [Act.aCancel]).error = none) :=
  run_from_fresh_future_consistent [Act.aCancel] (by decide)
